import Mathlib

/-!
Verification development for the UniAssist repository.

We shallowly embed the Python source under `src/` into Lean:

* `src/main_Agent.py` — the Planner normalization (`plan_node`), the
  Sequential Executor (`executor_node`, `build_serial_graph`).
* `src/A2A/server.py` — the Protocol Dispatcher (`A2AServer._process_request`,
  `_handle_exception`, `_create_response`).
* `src/host_agent.py` — the Remote Client (`RemoteAgentClient.fetch_agent_card`,
  `RemoteAgentClient.send_task`) and `HostAgent` (`get_client_by_name`,
  `send_task`).

Python strings are modelled as `List Char` where character-level operations
matter (the planner normalization) and as `String` elsewhere.  External
collaborators (the LLM planner, the react agent, the network) are modelled as
function parameters; exceptions are modelled with `Option`/`Except`.
-/

/-! ## Planner normalization (src/main_Agent.py, plan_node, lines 107-113)

Python:
  steps = [s.strip().lstrip("0123456789.、)） ").rstrip()
           for s in plan_text.splitlines() if s.strip()]
-/

/-- Python whitespace characters stripped by `str.strip()` / `str.rstrip()`
(ASCII subset; the planner lines only ever contain these). -/
def pyWhitespace (c : Char) : Bool :=
  c == ' ' || c == '\t' || c == '\n' || c == '\r' || c == '\x0B' || c == '\x0C'

/-- `str.lstrip` with an explicit predicate on characters. -/
def pyLStrip (p : Char → Bool) (s : List Char) : List Char :=
  s.dropWhile p

/-- `str.rstrip` with an explicit predicate on characters. -/
def pyRStrip (p : Char → Bool) (s : List Char) : List Char :=
  (s.reverse.dropWhile p).reverse

/-- `str.strip` with an explicit predicate on characters. -/
def pyStrip (p : Char → Bool) (s : List Char) : List Char :=
  pyRStrip p (pyLStrip p s)

/-- The exact character set of the Python call
`lstrip("0123456789.、)） ")` in `plan_node`. -/
def enumChars : List Char :=
  ['0', '1', '2', '3', '4', '5', '6', '7', '8', '9', '.', '、', ')', '）', ' ']

/-- One element of the list comprehension:
`s.strip().lstrip("0123456789.、)） ").rstrip()`. -/
def normalizeLine (s : List Char) : List Char :=
  pyRStrip pyWhitespace
    (pyLStrip (fun c => enumChars.contains c) (pyStrip pyWhitespace s))

/-- `plan_text.splitlines()`, modelled as splitting on the newline character.
(Python also splits on rarer terminators such as carriage returns; those only
introduce additional blank segments, which the comprehension filter below
removes, so the resulting step list is unchanged.) -/
def splitLines (s : List Char) : List (List Char) :=
  s.splitOn '\n'

/-- The full normalization of `plan_node`:
`[s.strip().lstrip("0123456789.、)） ").rstrip() for s in plan_text.splitlines() if s.strip()]`. -/
def planSteps (text : List Char) : List (List Char) :=
  ((splitLines text).filter (fun l => !(pyStrip pyWhitespace l).isEmpty)).map normalizeLine

/-- A step has no leading character from the strip set `enumChars`
(vacuously true for the empty step). -/
def noLeadingEnum (s : List Char) : Bool :=
  match s with
  | [] => true
  | c :: _ => !(enumChars.contains c)

/-! ## Sequential Executor (src/main_Agent.py)

`StepState` is the graph state (`steps`, `current`, `history`, `messages`).
The react agent (`build_react_agent`) is an external collaborator: we model it
as a function from the message list passed to `invoke` to the message list it
returns (`result["messages"]`).  Python exceptions (`IndexError` on an
out-of-range step index or on `[-1]` of an empty list) are modelled by
returning `none`. -/

/-- A message object as the executor sees it: the executor builds
`{"role": "user", "content": step}` turns and stores whatever message object
the agent returned last. -/
inductive Msg
  | user (content : List Char)
  | ai (content : List Char)
deriving DecidableEq, Repr

/-- `.get("content", "")` / `getattr(msg, "content", "")`. -/
def Msg.content : Msg → List Char
  | .user c => c
  | .ai c => c

/-- The graph state `StepState` of `main_Agent.py`. -/
structure StepState where
  steps : List (List Char)
  current : Nat
  history : List Msg
  messages : List Msg
deriving DecidableEq, Repr

/-- `executor_node(state, react_agent)` (src/main_Agent.py lines 61-88).
Returns the updated state together with a record of the single
`react_agent.invoke` call it performs: `(step index used, messages passed)`.
`none` models the `IndexError` raised by `state["steps"][step_idx]` when the
index is out of range, or by `result["messages"][-1]` when the agent returned
no messages. -/
def executor_node (react_agent : List Msg → List Msg) (s : StepState) :
    Option (StepState × (Nat × List Msg)) :=
  match s.steps[s.current]? with
  | none => none
  | some step =>
    let history := s.history
    let user_turn := Msg.user step
    let input := history ++ [user_turn]
    let result := react_agent input
    match result.getLast? with
    | none => none
    | some ai_msg =>
      some ({ s with history := history ++ [ai_msg], current := s.current + 1 },
            (s.current, input))

/-- The executor loop of `build_serial_graph`: run `executor_node`, then the
conditional edge `"executor" if s["current"] < len(s["steps"]) else END`
(src/main_Agent.py lines 123-126).  The entry edge `planner -> executor` is
unconditional, so the executor runs at least once.  `fuel` bounds the
iterations (the loop needs exactly `len(steps) - current` of them); running
out of fuel yields `none`.  Returns the final state and the list of
`react_agent.invoke` call records in order. -/
def execLoopFuel (react_agent : List Msg → List Msg) :
    Nat → StepState → Option (StepState × List (Nat × List Msg))
  | 0, _ => none
  | fuel + 1, s =>
    match executor_node react_agent s with
    | none => none
    | some (s2, call) =>
      if s2.current < s2.steps.length then
        (execLoopFuel react_agent fuel s2).map (fun r => (r.1, call :: r.2))
      else
        some (s2, [call])

/-- `plan_node(state)` (src/main_Agent.py lines 97-114).  The planning
collaborator `planner.invoke` (prompt | llm) is modelled as a function from
the question to the generated text `plan_text`.  Returns the updated state and
the question string the planner was invoked on (exactly one invocation).
`none` models the `IndexError` of `state["messages"][-1]` on an empty message
list. -/
def plan_node (planner : List Char → List Char) (s : StepState) :
    Option (StepState × List Char) :=
  match s.messages.getLast? with
  | none => none
  | some last_msg =>
    let question := last_msg.content
    let plan_text := planner question
    some ({ s with steps := planSteps plan_text, current := 0 }, question)

/-- One invocation of the compiled serial graph of `build_serial_graph`:
`planner` node first, then the executor loop (entry edge is unconditional).
Returns the final state, the single planner question, and the ordered
`react_agent.invoke` call records. -/
def run_serial_graph (planner : List Char → List Char)
    (react_agent : List Msg → List Msg) (s : StepState) :
    Option (StepState × List Char × List (Nat × List Msg)) :=
  match plan_node planner s with
  | none => none
  | some (s1, question) =>
    match execLoopFuel react_agent s1.steps.length s1 with
    | none => none
    | some (s2, calls) => some (s2, question, calls)

/-! ## Protocol Dispatcher (src/A2A/server.py)

`A2A/custom_types.py` and `task_manager.py` are not under src/: the request
union, the error objects and the handler return shapes are modelled from the
spec (§4.1, §4.2, §6, §7) where noted.  The dispatcher logic itself
(`_process_request`, `_handle_exception`, `_create_response`) is embedded
from src/A2A/server.py. -/

/-- Modelled from the spec: the seven request variants of the `A2ARequest`
discriminated union of `A2A/custom_types.py` (not under src/).  Each variant
is routed by `_process_request` to its own task-manager handler
(`on_send_task`, `on_send_task_subscribe`, `on_get_task`, `on_cancel_task`,
`on_set_task_push_notification`, `on_get_task_push_notification`,
`on_resubscribe_to_task`). -/
inductive A2ARequestTy
  | sendTask
  | sendTaskStreaming
  | getTask
  | cancelTask
  | setTaskPush
  | getTaskPush
  | resubscribe
deriving DecidableEq, Repr

/-- The seven JSON-RPC method names the dispatcher recognizes (spec §4.1/§6). -/
def a2aMethods : List String :=
  ["tasks/send", "tasks/sendSubscribe", "tasks/get", "tasks/cancel",
   "tasks/pushNotification/set", "tasks/pushNotification/get",
   "tasks/resubscribe"]

/-- The method name of each request variant. -/
def methodName : A2ARequestTy → String
  | .sendTask => "tasks/send"
  | .sendTaskStreaming => "tasks/sendSubscribe"
  | .getTask => "tasks/get"
  | .cancelTask => "tasks/cancel"
  | .setTaskPush => "tasks/pushNotification/set"
  | .getTaskPush => "tasks/pushNotification/get"
  | .resubscribe => "tasks/resubscribe"

/-- A parsed JSON-RPC request body: its correlation id, its method string,
and whether its params match the method's declared parameter shape. -/
structure RpcBody where
  id : Option Nat
  method : String
  paramsValid : Bool
deriving DecidableEq, Repr

/-- The method-keyed dispatch of the request union: which variant (if any) a
method string selects. -/
def methodVariant (m : String) : Option A2ARequestTy :=
  if m = "tasks/send" then some .sendTask
  else if m = "tasks/sendSubscribe" then some .sendTaskStreaming
  else if m = "tasks/get" then some .getTask
  else if m = "tasks/cancel" then some .cancelTask
  else if m = "tasks/pushNotification/set" then some .setTaskPush
  else if m = "tasks/pushNotification/get" then some .getTaskPush
  else if m = "tasks/resubscribe" then some .resubscribe
  else none

/-- Modelled from the spec: `A2ARequest.validate_python` of
`A2A/custom_types.py` (not under src/).  Validation succeeds exactly for the
seven recognized methods, each constrained to its own parameter shape; a
failure raises a pydantic `ValidationError` whose data the dispatcher echoes
into the error response. -/
def validateA2A (b : RpcBody) : Except String A2ARequestTy :=
  match methodVariant b.method with
  | none => .error ("validation error: unrecognized method " ++ b.method)
  | some v =>
    if b.paramsValid = true then .ok v
    else .error ("validation error: invalid params for " ++ b.method)

/-- The JSON-RPC error objects built by `_handle_exception`: `JSONParseError()`
and `InternalError()` are constructed with no arguments (fixed code and
message, no request- or exception-specific detail), while
`InvalidRequestError(data=json.loads(e.json()))` carries the validation
data. -/
inductive JsonRpcErr
  | jsonParseError
  | invalidRequestErr (data : String)
  | internalErr
deriving DecidableEq, Repr

/-- `JSONRPCResponse(id=..., result=..., error=...)` as rendered by
`model_dump(exclude_none=True)`. -/
structure RpcRespBody where
  id : Option Nat
  result : Option String
  error : Option JsonRpcErr
deriving DecidableEq, Repr

/-- A rendered HTTP response: `JSONResponse(body, status_code)` or an
`EventSourceResponse` stream of SSE data fields. -/
inductive HttpResp
  | json (status : Nat) (body : RpcRespBody)
  | sse (events : List String)
deriving DecidableEq, Repr

/-- The id member of a JSON response body (`none` for a stream). -/
def respBodyId : HttpResp → Option (Option Nat)
  | .json _ body => some body.id
  | .sse _ => none

/-- The exception classes `_handle_exception` distinguishes:
`json.decoder.JSONDecodeError`, pydantic `ValidationError` (with its data),
and any other exception (with its server-side detail string). -/
inductive Exc
  | jsonDecode
  | validation (data : String)
  | other (detail : String)
deriving DecidableEq, Repr

/-- `A2AServer._handle_exception` (src/A2A/server.py lines 112-122): map the
exception to a JSON-RPC error object (logging unhandled exceptions with
detail server-side only) and render
`JSONRPCResponse(id=None, error=...)` with HTTP status 400.
Returns `(rendered response, server-side log lines)`. -/
def handle_exception (e : Exc) : HttpResp × List String :=
  match e with
  | .jsonDecode => (.json 400 ⟨none, none, some .jsonParseError⟩, [])
  | .validation d => (.json 400 ⟨none, none, some (.invalidRequestErr d)⟩, [])
  | .other detail =>
    (.json 400 ⟨none, none, some .internalErr⟩,
     ["Unhandled exception: " ++ detail])

/-- A task-manager handler result as `_create_response` inspects it: an
`AsyncIterable` (stream of events), a `JSONRPCResponse`, or any other
object. -/
inductive TMResult
  | stream (events : List String)
  | response (body : RpcRespBody)
  | other
deriving DecidableEq, Repr

/-- The outcome of one task-manager handler call: a returned result, or a
raised exception. -/
inductive TMOutcome
  | ok (r : TMResult)
  | raises (e : Exc)

/-- `A2AServer._create_response` (src/A2A/server.py lines 124-138): an
`AsyncIterable` becomes an `EventSourceResponse`, a `JSONRPCResponse` becomes
a `JSONResponse` (default status 200), and any other result raises
`ValueError`. -/
def create_response (r : TMResult) : Except Exc HttpResp :=
  match r with
  | .stream events => .ok (.sse events)
  | .response body => .ok (.json 200 body)
  | .other => .error (.other "Unexpected result type")

/-- The inbound POST body: `await request.json()` either raises
`json.decoder.JSONDecodeError` or yields a JSON body. -/
inductive InboundBody
  | malformed
  | parsed (b : RpcBody)

/-- The observable outcome of `_process_request`: the rendered response, the
task-manager handler invocations performed (each request variant names its
own handler method), and the server-side log lines. -/
structure DispatchResult where
  resp : HttpResp
  handlerCalls : List A2ARequestTy
  logs : List String
deriving DecidableEq, Repr

/-- `A2AServer._process_request` (src/A2A/server.py lines 74-110): parse the
body, validate it into the request union, route to the task manager, render
the result; any exception raised anywhere in the body is recovered by
`_handle_exception`.  The task manager is a parameter (one abstract handler
outcome per request variant). -/
def process_request (tm : A2ARequestTy → TMOutcome) (inb : InboundBody) :
    DispatchResult :=
  match inb with
  | .malformed =>
    let rl := handle_exception .jsonDecode
    ⟨rl.1, [], rl.2⟩
  | .parsed b =>
    match validateA2A b with
    | .error d =>
      let rl := handle_exception (.validation d)
      ⟨rl.1, [], rl.2⟩
    | .ok req =>
      match tm req with
      | .raises e =>
        let rl := handle_exception e
        ⟨rl.1, [req], rl.2⟩
      | .ok res =>
        match create_response res with
        | .ok http => ⟨http, [req], []⟩
        | .error e =>
          let rl := handle_exception e
          ⟨rl.1, [req], rl.2⟩

/-- The two streaming request variants: per spec §4.1, `tasks/sendSubscribe`
and `tasks/resubscribe` return an event stream; all other methods a single
JSON-RPC response. -/
def streamingVariant : A2ARequestTy → Bool
  | .sendTaskStreaming => true
  | .resubscribe => true
  | _ => false

/-- Modelled from the spec: a task manager conforming to §4.2
(`task_manager.py` is not under src/) returns an event stream
(`AsyncIterable`) from the two subscription handlers and a single
`JSONRPCResponse` from every other handler, and does not raise. -/
def SpecTM (tm : A2ARequestTy → TMOutcome) : Prop :=
  ∀ r, (streamingVariant r = true → ∃ evs, tm r = .ok (.stream evs)) ∧
       (streamingVariant r = false → ∃ body, tm r = .ok (.response body))

/-! ## Remote Client and HostAgent (src/host_agent.py)

The network is modelled as a function from the issued request to its outcome;
`requests` exceptions and `raise_for_status()` failures are `TransportErr`;
`uuid.uuid4()` draws come from a counter producing pairwise-distinct ids. -/

/-- `AgentCapabilities` (src/host_agent.py lines 17-23). -/
structure AgentCapabilities where
  streaming : Bool
  pushNotifications : Bool
  stateTransitionHistory : Bool
deriving DecidableEq, Repr

/-- The capabilities member of the discovery JSON as passed to
`AgentCapabilities(**caps_data)`; absent keys take the constructor defaults
(`False`). -/
structure CapsJson where
  streaming : Option Bool
  pushNotifications : Option Bool
  stateTransitionHistory : Option Bool
deriving DecidableEq, Repr

/-- `AgentCapabilities(**caps_data)` with its defaults. -/
def mkCapabilities (d : CapsJson) : AgentCapabilities :=
  ⟨d.streaming.getD false, d.pushNotifications.getD false,
   d.stateTransitionHistory.getD false⟩

/-- The single-quote character as a string (used in rendered messages). -/
def sglQuote : String := String.singleton (Char.ofNat 39)

/-- `AgentCard` (src/host_agent.py lines 26-39). -/
structure AgentCard where
  name : String
  url : String
  version : String
  capabilities : AgentCapabilities
  description : String
deriving DecidableEq, Repr

/-- `AgentCard.__init__`: `self.description = description or "No description."`
— a `None` or empty (falsy) description falls back to the default. -/
def AgentCard.make (name url version : String)
    (capabilities : AgentCapabilities) (description : Option String) :
    AgentCard :=
  ⟨name, url, version, capabilities,
   match description with
   | none => "No description."
   | some d => if d = "" then "No description." else d⟩

/-- `TaskState` constants (src/host_agent.py lines 42-48). -/
def TaskState.completed : String := "completed"

def TaskState.inputRequired : String := "input-required"

def TaskState.unknown : String := "unknown"

/-- `RemoteAgentClient`: the base url and the cached agent card
(`self.agent_card`, initially `None`). -/
structure RemoteAgentClient where
  base_url : String
  agent_card : Option AgentCard
deriving DecidableEq, Repr

/-- A transport-layer failure of a `requests` call: the `requests` exception
classes (connection failure, timeout) and the `HTTPError` raised by
`raise_for_status()` on a 4xx/5xx status. -/
inductive TransportErr
  | connectionError
  | timeoutExpired
  | httpStatusError (code : Nat)
deriving DecidableEq, Repr

/-- The discovery response body `resp.json()` for `/.well-known/agent.json`:
the fields `fetch_agent_card` reads, with the optional description
(`data.get("description", "")`). -/
structure CardJson where
  name : String
  version : String
  capabilities : CapsJson
  description : Option String
deriving DecidableEq, Repr

/-- Outcome of the `requests.get` discovery call. -/
inductive FetchResult
  | failed (e : TransportErr)
  | got (status : Nat) (body : CardJson)

/-- `RemoteAgentClient.fetch_agent_card` (src/host_agent.py lines 61-79):
GET `{base_url}/.well-known/agent.json` (timeout 10), `raise_for_status()`,
build the card (`url=self.base_url`, description defaulted through
`AgentCard.__init__`), cache it in `self.agent_card`.  Returns the outcome
together with the requested URL. -/
def fetch_agent_card (c : RemoteAgentClient) (net : String → FetchResult) :
    Except TransportErr (AgentCard × RemoteAgentClient) × String :=
  let url := c.base_url ++ "/.well-known/agent.json"
  (match net url with
   | .failed e => .error e
   | .got code data =>
     if 400 ≤ code ∧ code < 600 then .error (.httpStatusError code)
     else
       let caps := mkCapabilities data.capabilities
       let card := AgentCard.make data.name c.base_url data.version caps
         (some (data.description.getD ""))
       .ok (card, { c with agent_card := some card }),
   url)

/-- The uuid generator state: `str(uuid.uuid4())` draws are modelled as a
counter, so successive draws are pairwise distinct. -/
structure World where
  uuidCounter : Nat
deriving DecidableEq, Repr

/-- One `uuid.uuid4()` draw. -/
def genUuid (w : World) : Nat × World := (w.uuidCounter, ⟨w.uuidCounter + 1⟩)

/-- The `tasks/send` JSON-RPC envelope built by `send_task`
(src/host_agent.py lines 83-95). -/
structure SendTaskPayload where
  jsonrpc : String
  id : Nat
  method : String
  taskId : String
  sessionId : String
  messageText : String
deriving DecidableEq, Repr

/-- One blocking HTTP POST as issued by
`requests.post(self.base_url, json=payload, timeout=300)`. -/
structure HttpCall where
  url : String
  payload : SendTaskPayload
  timeoutSeconds : Nat
deriving DecidableEq, Repr

/-- The result dict of a `tasks/send` response:
`result.get("status", {}).get("state", ...)` reads `statusState` (absent key
chain gives `none`); `rendered` is how the dict prints inside an f-string. -/
structure TaskResultJson where
  statusState : Option String
  rendered : String
deriving DecidableEq, Repr

/-- The JSON-RPC response body of a `tasks/send` call: the `error` member
(absent or null gives `none`) and the `result` member
(`resp.get("result", {})` defaults to the empty dict). -/
structure RpcSendResp where
  errorVal : Option String
  resultVal : Option TaskResultJson
deriving DecidableEq, Repr

/-- Outcome of the HTTP POST. -/
inductive HttpResult
  | failed (e : TransportErr)
  | got (status : Nat) (body : RpcSendResp)

/-- The two exception types a `send_task` call surfaces, distinct by
construction: a transport failure (`requests` exceptions including
`raise_for_status`) and the protocol-level
`RuntimeError(f"Remote agent error: {resp['error']}")` raised on a non-null
JSON-RPC `error` member. -/
inductive SendTaskExc
  | transport (e : TransportErr)
  | remoteProtocol (detail : String)
deriving DecidableEq, Repr

/-- `RemoteAgentClient.send_task` (src/host_agent.py lines 81-101): build a
`tasks/send` envelope whose correlation id is freshly drawn inside the call,
POST it to the base url with `timeout=300`, `raise_for_status()`, raise
`RuntimeError` on a non-null `error` member, else return
`resp.get("result", {})`.  Returns the outcome, the successor uuid state, and
the issued HTTP call. -/
def send_task (c : RemoteAgentClient)
    (task_id session_id message_text : String)
    (net : HttpCall → HttpResult) (w : World) :
    Except SendTaskExc TaskResultJson × World × HttpCall :=
  let uw := genUuid w
  let payload : SendTaskPayload :=
    ⟨"2.0", uw.1, "tasks/send", task_id, session_id, message_text⟩
  let call : HttpCall := ⟨c.base_url, payload, 300⟩
  (match net call with
   | .failed e => .error (.transport e)
   | .got code body =>
     if 400 ≤ code ∧ code < 600 then
       .error (.transport (.httpStatusError code))
     else
       match body.errorVal with
       | some err => .error (.remoteProtocol ("Remote agent error: " ++ err))
       | none => .ok (body.resultVal.getD ⟨none, "\x7b\x7d"⟩),
   uw.2, call)

/-- `HostAgent`: `self.clients` (a dict from address to client), modelled as
the list of clients in insertion order (`.values()` iteration order). -/
structure HostAgent where
  clients : List RemoteAgentClient
deriving DecidableEq, Repr

/-- `HostAgent.get_client_by_name` (src/host_agent.py lines 142-147): the
first client whose cached card's name matches. -/
def get_client_by_name (h : HostAgent) (agent_name : String) :
    Option RemoteAgentClient :=
  h.clients.find? (fun c =>
    match c.agent_card with
    | some card => card.name == agent_name
    | none => false)

/-- How `str(exc)` renders each `send_task` exception inside
`f"Remote agent call failed: {exc}"` (the `requests` exception texts are
opaque; `str` of a `RuntimeError` is its message). -/
def renderExc : SendTaskExc → String
  | .transport .connectionError => "connection error"
  | .transport .timeoutExpired => "timed out"
  | .transport (.httpStatusError code) => "HTTP status error " ++ toString code
  | .remoteProtocol detail => detail

/-- `HostAgent.send_task` (src/host_agent.py lines 149-172): look up the
client by agent name; without a client (or a cached card) return the error
string and perform no remote call; otherwise draw a fresh task id, call
`client.send_task(task_id, "session-xyz", message)` and fold every outcome —
including any raised exception — into a returned string.  Returns the string
and the issued HTTP calls (exactly one when a client was found). -/
def host_send_task (h : HostAgent) (agent_name message : String)
    (net : HttpCall → HttpResult) (w : World) : String × List HttpCall :=
  match get_client_by_name h agent_name with
  | none =>
    ("Error: No agent card found for " ++ sglQuote ++ agent_name ++ sglQuote ++ ".", [])
  | some client =>
    match client.agent_card with
    | none =>
      ("Error: No agent card found for " ++ sglQuote ++ agent_name ++ sglQuote ++ ".", [])
    | some _ =>
      let tw := genUuid w
      let task_id := "task-" ++ toString tw.1
      let res := send_task client task_id "session-xyz" message net tw.2
      let text :=
        match res.1 with
        | .error exc => "Remote agent call failed: " ++ renderExc exc
        | .ok result =>
          let state := result.statusState.getD "unknown"
          if state = TaskState.completed then
            "Task " ++ task_id ++ " completed with message: " ++
              result.rendered
          else if state = TaskState.inputRequired then
            "Task " ++ task_id ++ " needs more input: " ++ result.rendered
          else
            "Task " ++ task_id ++ " ended with state=" ++ state ++
              ", result=" ++ result.rendered
      (text, [res.2.2])

/-- Whether a fetch outcome succeeded. -/
def fetchSucceeded (r : Except TransportErr (AgentCard × RemoteAgentClient)) :
    Bool :=
  match r with
  | .ok _ => true
  | .error _ => false

/-! ## theorems (planner) -/

theorem dropWhile_head_not (p : Char → Bool) (l : List Char) :
    ∀ c, (l.dropWhile p).head? = some c → p c = false := by
  induction l with
  | nil => intro c h; simp [List.dropWhile] at h
  | cons a t ih =>
    intro c h
    by_cases hp : p a
    · rw [List.dropWhile_cons_of_pos hp] at h
      exact ih c h
    · rw [List.dropWhile_cons_of_neg hp] at h
      simp at h
      subst h
      simpa using hp

theorem pyRStrip_head (p : Char → Bool) (l : List Char) :
    pyRStrip p l = [] ∨ (pyRStrip p l).head? = l.head? := by
  have hsuf : l.reverse.dropWhile p <:+ l.reverse := List.dropWhile_suffix p
  obtain ⟨t, ht⟩ := hsuf
  have hl : l = (l.reverse.dropWhile p).reverse ++ t.reverse := by
    have := congrArg List.reverse ht
    simpa [List.reverse_append] using this.symm
  rcases heq : (l.reverse.dropWhile p).reverse with _ | ⟨a, rest⟩
  · left; simp [pyRStrip, heq]
  · right
    rw [pyRStrip, heq]
    conv_rhs => rw [hl, heq]
    simp

/-- C6 (amended): every step returned by the planner normalization comes from a
non-blank line of the generated text, and a returned step never begins with a
character of the stripped set `enumChars` (digits, dot, 、, parens, space);
a step may be empty (a line consisting only of stripped characters), and
bullet characters such as a hyphen are not stripped. -/
theorem planner_normalization_amended (text step : List Char)
    (h : step ∈ planSteps text) :
    noLeadingEnum step = true ∧
    ∃ line, line ∈ splitLines text ∧ (pyStrip pyWhitespace line).isEmpty = false ∧
      step = normalizeLine line := by
  unfold planSteps at h
  rw [List.mem_map] at h
  obtain ⟨line, hline, heq⟩ := h
  rw [List.mem_filter] at hline
  obtain ⟨hmem, hcond⟩ := hline
  constructor
  · subst heq
    unfold normalizeLine
    rcases pyRStrip_head pyWhitespace
        (pyLStrip (fun c => enumChars.contains c) (pyStrip pyWhitespace line)) with hnil | hhead
    · rw [hnil]; rfl
    · cases hres : pyRStrip pyWhitespace
          (pyLStrip (fun c => enumChars.contains c) (pyStrip pyWhitespace line)) with
      | nil => rfl
      | cons c rest =>
        have hc : (pyLStrip (fun c => enumChars.contains c)
            (pyStrip pyWhitespace line)).head? = some c := by
          rw [← hhead, hres]; rfl
        have hpc : enumChars.contains c = false :=
          dropWhile_head_not (fun c => enumChars.contains c) (pyStrip pyWhitespace line) c hc
        have hpc2 : c ∉ enumChars := by simpa using hpc
        simp [noLeadingEnum, hpc2]
  · exact ⟨line, hmem, by simpa using hcond, heq.symm⟩

/-- Witness for `planner_normalization_amended` at the concrete generated text
"1. ab", whose single step normalizes to "ab". -/
theorem planner_normalization_amended_witness :
    (("ab".toList ∈ planSteps ("1. ab".toList)) ∧ noLeadingEnum ("ab".toList) = true) :=
  ⟨by decide,
    (planner_normalization_amended ("1. ab".toList) ("ab".toList) (by decide)).1⟩

/-- C6 counterexample: the claim "no returned step is empty or begins with an
enumeration marker or bullet" is false on the code.  The generated text "1."
yields the single step "" (empty), and the generated text "- ab" yields the
step "- ab", which still begins with the bullet character `-` because the
`lstrip` set of `plan_node` contains no bullet characters. -/
theorem planner_normalization_counterexample :
    planSteps ("1.".toList) = [[]] ∧
    planSteps ("- ab".toList) = [['-', ' ', 'a', 'b']] := by
  decide

/-! ## theorems (executor) -/

theorem getLast?_of_ne_nil {α : Type} (l : List α) (h : l ≠ []) :
    ∃ a, l.getLast? = some a :=
  ⟨l.getLast h, List.getLast?_eq_getLast l h⟩

theorem execLoopFuel_succ (agent : List Msg → List Msg) (fuel : Nat)
    (s : StepState) :
    execLoopFuel agent (fuel + 1) s =
      match executor_node agent s with
      | none => none
      | some (s2, call) =>
        if s2.current < s2.steps.length then
          (execLoopFuel agent fuel s2).map (fun r => (r.1, call :: r.2))
        else
          some (s2, [call]) := rfl

theorem execLoop_spec (agent : List Msg → List Msg) (hA : ∀ ms, agent ms ≠ []) :
    ∀ (k : Nat) (s : StepState), 1 ≤ k → s.current + k = s.steps.length →
    ∃ s2 tr, execLoopFuel agent k s = some (s2, tr) ∧
      tr.length = k ∧
      s2.steps = s.steps ∧
      s2.messages = s.messages ∧
      s2.current = s.steps.length ∧
      s2.history.length = s.history.length + k ∧
      (∀ i, i < k →
        (tr.getD i (0, [])).1 = s.current + i ∧
        ((tr.getD i (0, [])).2).getLast? =
          some (Msg.user (s.steps.getD (s.current + i) [])) ∧
        ((tr.getD i (0, [])).2).dropLast.length = s.history.length + i) ∧
      ((tr.getD 0 (0, [])).2).dropLast = s.history ∧
      (∀ i, i + 1 < k →
        ∃ r, (agent ((tr.getD i (0, [])).2)).getLast? = some r ∧
          ((tr.getD (i + 1) (0, [])).2).dropLast =
            ((tr.getD i (0, [])).2).dropLast ++ [r]) ∧
      (∃ r, (agent ((tr.getD (k - 1) (0, [])).2)).getLast? = some r ∧
        s2.history = ((tr.getD (k - 1) (0, [])).2).dropLast ++ [r]) := by
  intro k
  induction k with
  | zero => intro s h1 h2; omega
  | succ j ih =>
    intro s h1 hlen
    have hcur : s.current < s.steps.length := by omega
    cases hstep : s.steps[s.current]? with
    | none =>
      rw [List.getElem?_eq_none_iff] at hstep
      omega
    | some step =>
      obtain ⟨r, hlast⟩ :=
        getLast?_of_ne_nil (agent (s.history ++ [Msg.user step]))
          (hA (s.history ++ [Msg.user step]))
      have hexec : executor_node agent s =
          some (⟨s.steps, s.current + 1, s.history ++ [r], s.messages⟩,
                (s.current, s.history ++ [Msg.user step])) := by
        simp [executor_node, hstep, hlast]
      cases j with
      | zero =>
        have hstop : ¬ (s.current + 1 < s.steps.length) := by omega
        refine ⟨⟨s.steps, s.current + 1, s.history ++ [r], s.messages⟩,
          [(s.current, s.history ++ [Msg.user step])],
          ?_, ?_, ?_, ?_, ?_, ?_, ?_, ?_, ?_, ?_⟩
        · rw [execLoopFuel_succ, hexec]
          simp [hstop]
        · rfl
        · rfl
        · rfl
        · show s.current + 1 = s.steps.length
          omega
        · show (s.history ++ [r]).length = s.history.length + (0 + 1)
          simp
        · intro i hi
          have hi0 : i = 0 := by omega
          subst hi0
          refine ⟨by simp, ?_, ?_⟩
          · simp [hstep]
          · simp [List.dropLast_concat]
        · simp [List.dropLast_concat]
        · intro i hi; omega
        · refine ⟨r, by simpa using hlast, ?_⟩
          show s.history ++ [r] = _
          simp [List.dropLast_concat]
      | succ j2 =>
        obtain ⟨s2, tr2, hrun, htrlen, hsteps2, hmsgs2, hcur2, hhist2, hidx,
            hhead, hcons, hfin⟩ :=
          ih ⟨s.steps, s.current + 1, s.history ++ [r], s.messages⟩
            (by omega) (by show s.current + 1 + (j2 + 1) = s.steps.length; omega)
        refine ⟨s2, (s.current, s.history ++ [Msg.user step]) :: tr2,
          ?_, ?_, ?_, ?_, ?_, ?_, ?_, ?_, ?_, ?_⟩
        · rw [execLoopFuel_succ, hexec]
          dsimp only
          rw [if_pos (show s.current + 1 < s.steps.length by omega)]
          rw [hrun]
          rfl
        · simp [htrlen]
        · simpa using hsteps2
        · simpa using hmsgs2
        · simpa using hcur2
        · simp at hhist2
          simp [hhist2]
          omega
        · intro i hi
          cases i with
          | zero =>
            refine ⟨by simp, ?_, ?_⟩
            · simp [hstep]
            · simp [List.dropLast_concat]
          | succ i2 =>
            have hi2 : i2 < j2 + 1 := by omega
            obtain ⟨ha, hb, hc⟩ := hidx i2 hi2
            refine ⟨?_, ?_, ?_⟩
            · rw [List.getD_cons_succ]
              have he : s.current + (i2 + 1) = s.current + 1 + i2 := by omega
              rw [he]
              simpa using ha
            · rw [List.getD_cons_succ]
              have he : s.current + (i2 + 1) = s.current + 1 + i2 := by omega
              rw [he]
              simpa using hb
            · rw [List.getD_cons_succ]
              have he : s.history.length + (i2 + 1) =
                  (s.history ++ [r]).length + i2 := by simp; omega
              rw [he]
              simpa using hc
        · simp [List.dropLast_concat]
        · intro i hi
          cases i with
          | zero =>
            refine ⟨r, by simpa using hlast, ?_⟩
            have hh : ((tr2.getD 0 (0, [])).2).dropLast = s.history ++ [r] := by
              simpa using hhead
            rw [List.getD_cons_succ, List.getD_cons_zero, hh,
              List.dropLast_concat]
          | succ i2 =>
            have hi2 : i2 + 1 < j2 + 1 := by omega
            obtain ⟨r2, ha2, hb2⟩ := hcons i2 hi2
            exact ⟨r2, by simpa using ha2, by simpa using hb2⟩
        · obtain ⟨r2, hr2a, hr2b⟩ := hfin
          refine ⟨r2, ?_, ?_⟩
          · simpa using hr2a
          · simpa using hr2b

/-- C2: for every plan with steps `[s1, ..., sn]` (`n ≥ 1`), the executor loop
invokes the react agent exactly `n` times, in step order (the `i`-th call's
final message is the user turn for step `i`); the history before the `i`-th
call (`dropLast` of the call's input) has length `h0.length + i`, grows by
exactly the one AI reply after each completed step (so it never shrinks), and
the final history holds `h0.length + n` messages. -/
theorem executor_runs_each_step_once (agent : List Msg → List Msg)
    (steps : List (List Char)) (h0 msgs : List Msg)
    (hA : ∀ ms, agent ms ≠ []) (hn : 1 ≤ steps.length) :
    ∃ s2 tr, execLoopFuel agent steps.length ⟨steps, 0, h0, msgs⟩ = some (s2, tr) ∧
      tr.length = steps.length ∧
      (∀ i, i < steps.length →
        ((tr.getD i (0, [])).2).getLast? = some (Msg.user (steps.getD i [])) ∧
        ((tr.getD i (0, [])).2).dropLast.length = h0.length + i) ∧
      ((tr.getD 0 (0, [])).2).dropLast = h0 ∧
      (∀ i, i + 1 < steps.length →
        ∃ r, (agent ((tr.getD i (0, [])).2)).getLast? = some r ∧
          ((tr.getD (i + 1) (0, [])).2).dropLast =
            ((tr.getD i (0, [])).2).dropLast ++ [r]) ∧
      s2.history.length = h0.length + steps.length ∧
      (∃ r, (agent ((tr.getD (steps.length - 1) (0, [])).2)).getLast? = some r ∧
        s2.history = ((tr.getD (steps.length - 1) (0, [])).2).dropLast ++ [r]) := by
  obtain ⟨s2, tr, h1, h2, h3, h4, h5, h6, h7, h8, h9, h10⟩ :=
    execLoop_spec agent hA steps.length ⟨steps, 0, h0, msgs⟩ hn
      (show 0 + steps.length = steps.length by omega)
  refine ⟨s2, tr, h1, h2, ?_, ?_, h9, ?_, h10⟩
  · intro i hi
    obtain ⟨ha, hb, hc⟩ := h7 i hi
    exact ⟨by simpa using hb, by simpa using hc⟩
  · simpa using h8
  · simpa using h6

/-- Witness for `executor_runs_each_step_once`: a two-step plan driven by an
agent that always appends one AI reply succeeds. -/
theorem executor_runs_each_step_once_witness :
    (execLoopFuel (fun ms => ms ++ [Msg.ai []])
      ([['a'], ['b']] : List (List Char)).length
      ⟨[['a'], ['b']], 0, [], []⟩).isSome = true := by
  obtain ⟨s2, tr, h1, -⟩ :=
    executor_runs_each_step_once (fun ms => ms ++ [Msg.ai []]) [['a'], ['b']] [] []
      (fun ms => by simp) (by decide)
  rw [h1]
  rfl

/-- C4: on a fresh state holding the user's text `q`, the planner node invokes
the planning collaborator exactly once on `q`, populates `steps` with the
normalized plan and resets `current` to 0; the executor loop then increases
`current` by exactly one per executed step (the `i`-th call record carries
index `i`), every executed index is below `len(steps)`, and the run terminates
exactly when `current = len(steps)`. -/
theorem planner_once_then_current_counts_up (planner : List Char → List Char)
    (agent : List Msg → List Msg) (q : List Char)
    (hA : ∀ ms, agent ms ≠ [])
    (hn : 1 ≤ (planSteps (planner q)).length) :
    plan_node planner ⟨[], 0, [], [Msg.user q]⟩ =
      some (⟨planSteps (planner q), 0, [], [Msg.user q]⟩, q) ∧
    ∃ s2 tr, run_serial_graph planner agent ⟨[], 0, [], [Msg.user q]⟩ =
        some (s2, q, tr) ∧
      s2.steps = planSteps (planner q) ∧
      s2.current = s2.steps.length ∧
      tr.length = s2.steps.length ∧
      (∀ i, i < tr.length → (tr.getD i (0, [])).1 = i) ∧
      (∀ i, i < tr.length → (tr.getD i (0, [])).1 < s2.steps.length) := by
  have hplan : plan_node planner ⟨[], 0, [], [Msg.user q]⟩ =
      some (⟨planSteps (planner q), 0, [], [Msg.user q]⟩, q) := by
    simp [plan_node, Msg.content]
  obtain ⟨s2, tr, hrun, hlen2, hsteps, hmsgs, hcur, hhist, hidx, hhead, hcons, hfin⟩ :=
    execLoop_spec agent hA (planSteps (planner q)).length
      ⟨planSteps (planner q), 0, [], [Msg.user q]⟩ hn
      (show 0 + (planSteps (planner q)).length = (planSteps (planner q)).length by omega)
  refine ⟨hplan, s2, tr, ?_, ?_, ?_, ?_, ?_, ?_⟩
  · simp [run_serial_graph, hplan, hrun]
  · simpa using hsteps
  · rw [hcur, hsteps]
  · rw [hsteps]
    simpa using hlen2
  · intro i hi
    rw [hlen2] at hi
    obtain ⟨ha, -, -⟩ := hidx i hi
    simpa using ha
  · intro i hi
    rw [hlen2] at hi
    obtain ⟨ha, -, -⟩ := hidx i hi
    have hv : (tr.getD i (0, [])).1 = i := by simpa using ha
    rw [hv, hsteps]
    simpa using hi

/-- Witness for `planner_once_then_current_counts_up`: a planner that always
produces the one-step plan "1. a". -/
theorem planner_once_then_current_counts_up_witness :
    (run_serial_graph (fun _ => "1. a".toList) (fun ms => ms ++ [Msg.ai []])
      ⟨[], 0, [], [Msg.user ['q']]⟩).isSome = true := by
  obtain ⟨-, s2, tr, hrun, -⟩ :=
    planner_once_then_current_counts_up (fun _ => "1. a".toList)
      (fun ms => ms ++ [Msg.ai []]) ['q'] (fun ms => by simp) (by decide)
  rw [hrun]
  rfl

/-! ## theorems (dispatcher) -/

theorem validateA2A_ok_iff (b : RpcBody) (r : A2ARequestTy) :
    validateA2A b = .ok r ↔
      (methodVariant b.method = some r ∧ b.paramsValid = true) := by
  unfold validateA2A
  cases hmv : methodVariant b.method with
  | none => simp
  | some v => by_cases hp : b.paramsValid = true <;> simp [hp]

theorem methodVariant_of_mem (m : String) (hm : m ∈ a2aMethods) :
    ∃ r, methodVariant m = some r := by
  simp [a2aMethods] at hm
  rcases hm with rfl | rfl | rfl | rfl | rfl | rfl | rfl <;>
    exact ⟨_, rfl⟩

theorem methodVariant_name (m : String) (r : A2ARequestTy)
    (h : methodVariant m = some r) : m = methodName r ∧ m ∈ a2aMethods := by
  unfold methodVariant at h
  split_ifs at h with h1 h2 h3 h4 h5 h6 h7 <;>
    try (injection h with h9; subst h9)
  all_goals simp_all [methodName, a2aMethods]

/-- C1: an undecodable POST body is answered with a `JSONParseError` JSON-RPC
error and HTTP 400, a body that fails request validation with an
`InvalidRequestError` carrying the validation data and HTTP 400, and in both
cases no task-manager handler is invoked. -/
theorem dispatcher_rejects_bad_input_before_handlers
    (tm : A2ARequestTy → TMOutcome) :
    process_request tm .malformed =
      ⟨.json 400 ⟨none, none, some .jsonParseError⟩, [], []⟩ ∧
    ∀ b d, validateA2A b = .error d →
      process_request tm (.parsed b) =
        ⟨.json 400 ⟨none, none, some (.invalidRequestErr d)⟩, [], []⟩ := by
  refine ⟨rfl, ?_⟩
  intro b d h
  simp [process_request, h, handle_exception]

/-- Witness for `dispatcher_rejects_bad_input_before_handlers` at a concrete
body whose method is not one of the seven recognized ones. -/
theorem dispatcher_rejects_bad_input_before_handlers_witness :
    process_request (fun _ => .ok .other)
      (.parsed ⟨some 5, "tasks/unknown", true⟩) =
      ⟨.json 400 ⟨none, none, some (.invalidRequestErr
        ("validation error: unrecognized method " ++ "tasks/unknown"))⟩,
       [], []⟩ :=
  (dispatcher_rejects_bad_input_before_handlers (fun _ => .ok .other)).2
    ⟨some 5, "tasks/unknown", true⟩
    ("validation error: unrecognized method " ++ "tasks/unknown") rfl

/-- C5: validation succeeds exactly for the seven recognized methods (with
their parameter shape), each validated request is routed to exactly its own
task-manager handler (distinct methods map to distinct variants), and — for a
task manager conforming to the spec — the two subscription methods are
rendered as an SSE stream while every other method is rendered as a single
JSON-RPC response. -/
theorem dispatcher_seven_methods_routing (tm : A2ARequestTy → TMOutcome)
    (hTM : SpecTM tm) (b : RpcBody) :
    ((∃ r, validateA2A b = .ok r) ↔
      (b.paramsValid = true ∧ b.method ∈ a2aMethods)) ∧
    (∀ r, validateA2A b = .ok r →
      (process_request tm (.parsed b)).handlerCalls = [r] ∧
      b.method = methodName r ∧
      (streamingVariant r = true →
        ∃ evs, (process_request tm (.parsed b)).resp = .sse evs) ∧
      (streamingVariant r = false →
        ∃ body2, (process_request tm (.parsed b)).resp = .json 200 body2)) ∧
    (∀ b2 r r2, validateA2A b = .ok r → validateA2A b2 = .ok r2 →
      (r = r2 ↔ b.method = b2.method)) := by
  refine ⟨?_, ?_, ?_⟩
  · constructor
    · rintro ⟨r, hr⟩
      obtain ⟨hmv, hp⟩ := (validateA2A_ok_iff b r).mp hr
      exact ⟨hp, (methodVariant_name _ _ hmv).2⟩
    · rintro ⟨hp, hm⟩
      obtain ⟨r, hmv⟩ := methodVariant_of_mem _ hm
      exact ⟨r, (validateA2A_ok_iff b r).mpr ⟨hmv, hp⟩⟩
  · intro r hr
    obtain ⟨hs, hns⟩ := hTM r
    have hname : b.method = methodName r :=
      (methodVariant_name _ _ ((validateA2A_ok_iff b r).mp hr).1).1
    cases hsv : streamingVariant r with
    | true =>
      obtain ⟨evs, htm⟩ := hs hsv
      refine ⟨?_, hname, fun _ => ⟨evs, ?_⟩, fun hc => by simp [hsv] at hc⟩ <;>
        simp [process_request, hr, htm, create_response]
    | false =>
      obtain ⟨body2, htm⟩ := hns hsv
      refine ⟨?_, hname, fun hc => by simp [hsv] at hc, fun _ => ⟨body2, ?_⟩⟩ <;>
        simp [process_request, hr, htm, create_response]
  · intro b2 r r2 h1 h2
    have hm1 := (validateA2A_ok_iff b r).mp h1
    have hm2 := (validateA2A_ok_iff b2 r2).mp h2
    constructor
    · intro hrr
      subst hrr
      rw [(methodVariant_name _ _ hm1.1).1, (methodVariant_name _ _ hm2.1).1]
    · intro hmm
      rw [hmm] at hm1
      have := hm1.1.symm.trans hm2.1
      simpa using this

/-- Witness for `dispatcher_seven_methods_routing`: a spec-conforming task
manager routing a concrete `tasks/send` request to the send handler. -/
theorem dispatcher_seven_methods_routing_witness :
    (process_request
      (fun r => if streamingVariant r = true then TMOutcome.ok (.stream [])
                else .ok (.response ⟨none, some "done", none⟩))
      (.parsed ⟨some 1, "tasks/send", true⟩)).handlerCalls =
      [A2ARequestTy.sendTask] := by
  have hTM : SpecTM (fun r =>
      if streamingVariant r = true then TMOutcome.ok (.stream [])
      else .ok (.response ⟨none, some "done", none⟩)) := by
    intro r
    refine ⟨fun h => ⟨[], ?_⟩, fun h => ⟨⟨none, some "done", none⟩, ?_⟩⟩ <;>
      simp [h]
  exact ((dispatcher_seven_methods_routing _ hTM
    ⟨some 1, "tasks/send", true⟩).2.1 A2ARequestTy.sendTask rfl).1

/-- C8: any exception that is neither a JSON decode error nor a validation
error is surfaced as a generic `InternalError` with no internal detail: the
rendered response is identical for any two distinct internal exceptions (only
the server-side log differs), both directly at `_handle_exception` and
through `_process_request` when a handler raises. -/
theorem internal_errors_carry_no_detail (d1 d2 : String) :
    (handle_exception (.other d1)).1 = (handle_exception (.other d2)).1 ∧
    (handle_exception (.other d1)).1 =
      .json 400 ⟨none, none, some .internalErr⟩ ∧
    (∀ tm tm2 b r, validateA2A b = .ok r →
      tm r = .raises (.other d1) → tm2 r = .raises (.other d2) →
      (process_request tm (.parsed b)).resp =
        (process_request tm2 (.parsed b)).resp) := by
  refine ⟨rfl, rfl, ?_⟩
  intro tm tm2 b r hv h1 h2
  simp [process_request, hv, h1, h2, handle_exception]

/-- Witness for `internal_errors_carry_no_detail`: two distinct internal
exceptions raised by the `tasks/get` handler render identically. -/
theorem internal_errors_carry_no_detail_witness :
    (process_request (fun _ => .raises (.other "boom"))
      (.parsed ⟨none, "tasks/get", true⟩)).resp =
    (process_request (fun _ => .raises (.other "crash"))
      (.parsed ⟨none, "tasks/get", true⟩)).resp :=
  (internal_errors_carry_no_detail "boom" "crash").2.2
    (fun _ => .raises (.other "boom")) (fun _ => .raises (.other "crash"))
    ⟨none, "tasks/get", true⟩ A2ARequestTy.getTask rfl rfl rfl

/-- C9: every error response produced by `_handle_exception` carries a null
JSON-RPC id — regardless of the id present in the request body, including
when the request was valid JSON carrying an id (validation failure) and when
a handler raised on a fully validated request. -/
theorem error_responses_carry_null_id (e : Exc)
    (tm : A2ARequestTy → TMOutcome) (b : RpcBody) :
    respBodyId (handle_exception e).1 = some none ∧
    (∀ d, validateA2A b = .error d →
      respBodyId (process_request tm (.parsed b)).resp = some none) ∧
    (∀ r exc, validateA2A b = .ok r → tm r = .raises exc →
      respBodyId (process_request tm (.parsed b)).resp = some none) := by
  refine ⟨?_, ?_, ?_⟩
  · cases e <;> rfl
  · intro d h
    simp [process_request, h, handle_exception, respBodyId]
  · intro r exc hv hres
    cases exc <;> simp [process_request, hv, hres, handle_exception, respBodyId]

/-- Witness for `error_responses_carry_null_id`: a request body carrying
id 7 whose validation fails is answered with a null id. -/
theorem error_responses_carry_null_id_witness :
    respBodyId (process_request (fun _ => .ok .other)
      (.parsed ⟨some 7, "tasks/unknown", true⟩)).resp = some none :=
  (error_responses_carry_null_id .jsonDecode (fun _ => .ok .other)
    ⟨some 7, "tasks/unknown", true⟩).2.1
    ("validation error: unrecognized method " ++ "tasks/unknown") rfl

/-! ## theorems (remote client / host agent) -/

/-- C7: `fetch_agent_card` GETs the `/.well-known/agent.json` discovery path
of the client's base URL; on a successful response it builds a card whose
fields come from the response (url pinned to the base URL), caches it on the
client for that base URL, and a missing (or empty) optional description is
defaulted to "No description." instead of failing. -/
theorem fetch_card_caches_and_defaults (c : RemoteAgentClient)
    (net : String → FetchResult) (code : Nat) (data : CardJson)
    (hgot : net (c.base_url ++ "/.well-known/agent.json") = .got code data)
    (hok : ¬ (400 ≤ code ∧ code < 600)) :
    (fetch_agent_card c net).2 = c.base_url ++ "/.well-known/agent.json" ∧
    ∃ card c2, (fetch_agent_card c net).1 = .ok (card, c2) ∧
      c2.base_url = c.base_url ∧
      c2.agent_card = some card ∧
      card.url = c.base_url ∧
      card.name = data.name ∧
      card.version = data.version ∧
      card.capabilities = mkCapabilities data.capabilities ∧
      ((data.description = none ∨ data.description = some "") →
        card.description = "No description.") ∧
      (∀ d, data.description = some d → d ≠ "" → card.description = d) := by
  refine ⟨rfl, AgentCard.make data.name c.base_url data.version
      (mkCapabilities data.capabilities) (some (data.description.getD "")),
    { c with agent_card := some (AgentCard.make data.name c.base_url
      data.version (mkCapabilities data.capabilities)
      (some (data.description.getD ""))) },
    ?_, rfl, rfl, rfl, rfl, rfl, rfl, ?_, ?_⟩
  · simp [fetch_agent_card, hgot, hok]
  · rintro (hd | hd) <;> rw [hd] <;> rfl
  · intro d hd hne
    rw [hd]
    simp [AgentCard.make, hne]

/-- Witness for `fetch_card_caches_and_defaults`: a concrete discovery
response with no description succeeds. -/
theorem fetch_card_caches_and_defaults_witness :
    fetchSucceeded (fetch_agent_card ⟨"http://x", none⟩
      (fun _ => .got 200 ⟨"W", "1.0", ⟨none, none, none⟩, none⟩)).1 = true := by
  obtain ⟨-, card, c2, hres, -⟩ :=
    fetch_card_caches_and_defaults ⟨"http://x", none⟩
      (fun _ => .got 200 ⟨"W", "1.0", ⟨none, none, none⟩, none⟩) 200
      ⟨"W", "1.0", ⟨none, none, none⟩, none⟩ rfl (by decide)
  rw [hres]
  rfl

/-- C3 counterexample: the deadline of the blocking HTTP call made by
`send_task` is not configurable — it is the literal `timeout=300` for every
call: two calls with entirely different clients, arguments, transports and
uuid states both carry a 300-second deadline, and the function offers no
parameter that could change it. -/
theorem send_task_fixed_deadline_counterexample :
    (send_task ⟨"http://a", none⟩ "t1" "s1" "m1"
      (fun _ => .failed .connectionError) ⟨0⟩).2.2.timeoutSeconds = 300 ∧
    (send_task ⟨"http://b", none⟩ "t2" "s2" "m2"
      (fun _ => .got 200 ⟨none, none⟩) ⟨99⟩).2.2.timeoutSeconds = 300 :=
  ⟨rfl, rfl⟩

/-- C3 (amended): `send_task` builds a `tasks/send` envelope whose
correlation id is freshly generated per call (a later call never reuses it),
performs the blocking HTTP POST to the base URL with a fixed 300-second
deadline (not configurable), raises the typed remote-protocol error on a
non-null JSON-RPC `error` member, raises the typed transport error on
connection/timeout/HTTP-status failures, and the two error types are
distinct. -/
theorem send_task_envelope_and_errors (c : RemoteAgentClient)
    (task_id session_id message_text : String)
    (net : HttpCall → HttpResult) (w : World) :
    (send_task c task_id session_id message_text net w).2.2.payload.jsonrpc
      = "2.0" ∧
    (send_task c task_id session_id message_text net w).2.2.payload.method
      = "tasks/send" ∧
    (send_task c task_id session_id message_text net w).2.2.payload.taskId
      = task_id ∧
    (send_task c task_id session_id message_text net w).2.2.payload.id
      = w.uuidCounter ∧
    (send_task c task_id session_id message_text net w).2.1.uuidCounter
      = w.uuidCounter + 1 ∧
    (∀ c2 t2 s2 m2 net2,
      (send_task c2 t2 s2 m2 net2
        (send_task c task_id session_id message_text net w).2.1).2.2.payload.id
      ≠ (send_task c task_id session_id message_text net w).2.2.payload.id) ∧
    (send_task c task_id session_id message_text net w).2.2.url
      = c.base_url ∧
    (send_task c task_id session_id message_text net w).2.2.timeoutSeconds
      = 300 ∧
    (∀ e, net (send_task c task_id session_id message_text net w).2.2
        = .failed e →
      (send_task c task_id session_id message_text net w).1
        = .error (.transport e)) ∧
    (∀ code body,
      net (send_task c task_id session_id message_text net w).2.2
        = .got code body →
      400 ≤ code ∧ code < 600 →
      (send_task c task_id session_id message_text net w).1
        = .error (.transport (.httpStatusError code))) ∧
    (∀ code body err,
      net (send_task c task_id session_id message_text net w).2.2
        = .got code body →
      ¬ (400 ≤ code ∧ code < 600) → body.errorVal = some err →
      (send_task c task_id session_id message_text net w).1
        = .error (.remoteProtocol ("Remote agent error: " ++ err))) ∧
    (∀ d e, SendTaskExc.remoteProtocol d ≠ SendTaskExc.transport e) := by
  refine ⟨rfl, rfl, rfl, rfl, rfl, ?_, rfl, rfl, ?_, ?_, ?_, ?_⟩
  · intro c2 t2 s2 m2 net2
    show w.uuidCounter + 1 ≠ w.uuidCounter
    omega
  · intro e he
    have he2 : net ⟨c.base_url,
        ⟨"2.0", w.uuidCounter, "tasks/send", task_id, session_id,
          message_text⟩, 300⟩ = .failed e := he
    simp [send_task, genUuid, he2]
  · intro code body he hcode
    have he2 : net ⟨c.base_url,
        ⟨"2.0", w.uuidCounter, "tasks/send", task_id, session_id,
          message_text⟩, 300⟩ = .got code body := he
    simp [send_task, genUuid, he2, hcode]
  · intro code body err he hcode herr
    have he2 : net ⟨c.base_url,
        ⟨"2.0", w.uuidCounter, "tasks/send", task_id, session_id,
          message_text⟩, 300⟩ = .got code body := he
    simp [send_task, genUuid, he2, hcode, herr]
  · intro d e h
    exact SendTaskExc.noConfusion h

/-- Witness for `send_task_envelope_and_errors`: a concrete call answered by
a 200 response with a non-null error member raises the remote-protocol
error. -/
theorem send_task_envelope_and_errors_witness :
    (send_task ⟨"http://a", none⟩ "t" "s" "m"
      (fun _ => .got 200 ⟨some "boom", none⟩) ⟨0⟩).1 =
      .error (.remoteProtocol ("Remote agent error: " ++ "boom")) := by
  have h := send_task_envelope_and_errors ⟨"http://a", none⟩ "t" "s" "m"
    (fun _ => .got 200 ⟨some "boom", none⟩) ⟨0⟩
  exact h.2.2.2.2.2.2.2.2.2.2.1 200 ⟨some "boom", none⟩ "boom" rfl
    (by decide) rfl

theorem get_client_by_name_card (h : HostAgent) (agent_name : String)
    (client : RemoteAgentClient)
    (hf : get_client_by_name h agent_name = some client) :
    ∃ card, client.agent_card = some card ∧ card.name = agent_name := by
  have hp := List.find?_some hf
  cases hc : client.agent_card with
  | none => rw [hc] at hp; simp at hp
  | some card =>
    rw [hc] at hp
    simp at hp
    exact ⟨card, rfl, hp⟩

/-- C10: `HostAgent.send_task` always returns a string: when no cached agent
card matches the name it returns the error string without performing any
remote call; when a client is found it performs exactly one remote call, and
any exception raised by that call is folded into the
"Remote agent call failed" string instead of propagating. -/
theorem host_send_task_total (h : HostAgent) (agent_name message : String)
    (net : HttpCall → HttpResult) (w : World) :
    (get_client_by_name h agent_name = none →
      host_send_task h agent_name message net w =
        ("Error: No agent card found for " ++ sglQuote ++ agent_name ++
          sglQuote ++ ".", [])) ∧
    (∀ client exc, get_client_by_name h agent_name = some client →
      (send_task client ("task-" ++ toString (genUuid w).1) "session-xyz"
        message net (genUuid w).2).1 = .error exc →
      host_send_task h agent_name message net w =
        ("Remote agent call failed: " ++ renderExc exc,
         [(send_task client ("task-" ++ toString (genUuid w).1) "session-xyz"
            message net (genUuid w).2).2.2])) ∧
    (host_send_task h agent_name message net w).2.length ≤ 1 := by
  refine ⟨?_, ?_, ?_⟩
  · intro hn
    simp [host_send_task, hn]
  · intro client exc hf hsend
    obtain ⟨card, hcard, -⟩ := get_client_by_name_card h agent_name client hf
    simp [genUuid] at hsend
    simp [host_send_task, hf, hcard, genUuid, hsend]
  · cases hf : get_client_by_name h agent_name with
    | none => simp [host_send_task, hf]
    | some client =>
      cases hc : client.agent_card with
      | none => simp [host_send_task, hf, hc]
      | some card => simp [host_send_task, hf, hc]

/-- Witness for `host_send_task_total`: a host with no clients answers the
no-card error string and makes no remote call. -/
theorem host_send_task_total_witness :
    host_send_task ⟨[]⟩ "X" "hello" (fun _ => .failed .connectionError) ⟨0⟩ =
      ("Error: No agent card found for " ++ sglQuote ++ "X" ++ sglQuote ++
        ".", []) :=
  (host_send_task_total ⟨[]⟩ "X" "hello"
    (fun _ => .failed .connectionError) ⟨0⟩).1 rfl
